import Mathlib

/-!
Verification development for the survey tabulation core of the Social
repository (a streamlit reporting tool over a fixed-schema survey dataset).

The Python tabulation functions (`freq_single`, `freq_multi`,
`freq_multi_numbered`, `freq_multi_yes`, `combine_tom_other_promp`,
`process_open_ended_comments`) and the demographic filter application of
`render_filters` are shallowly embedded as executable Lean definitions over
lists of cell values.  pandas behaviour is modelled as follows:

* a dataframe cell is `Option PyVal` (`none` is a missing value / NaN);
* `Series.value_counts()` counts distinct values in order of first
  appearance and then sorts by count descending; the descending sort is
  stable, keeping ties in first-appearance order (pandas `nargsort`
  reverses the array, argsorts ascending, and reverses the indexer back,
  which preserves the relative order of equal keys);
* `sort_values(..., ascending=False)` is the same stable descending sort;
* percentages are represented exactly, scaled to integer tenths of a
  percent: the Python value `round(100 * cnt / denom, 1)` is embedded as
  the integer `divRoundHalfEven (1000 * cnt) denom` (round half to even,
  the rounding used by Python `round` and numpy on exact values);
* Python `str()` of a cell renders a missing value as `"nan"`, an integer
  in decimal, and leaves a string unchanged;
* a Python `dict` is an association list in insertion order, updated in
  place at the first matching key and appended to for fresh keys.
-/

namespace Social

/-- A Python scalar value held in a dataframe cell (integer code or text). -/
inductive PyVal where
  | vint : Int → PyVal
  | vstr : String → PyVal
deriving DecidableEq

/-- Python `str()` of a scalar value. -/
def PyVal.pyStr : PyVal → String
  | .vint n => toString n
  | .vstr s => s

/-- pandas `astype(str)` on a cell: missing values render as "nan". -/
def cellStr : Option PyVal → String
  | none => "nan"
  | some v => v.pyStr

/-- `str.upper()` (kernel-reducible list-of-characters implementation). -/
def strUpper (s : String) : String := ⟨s.data.map Char.toUpper⟩

/-- `str.lower()` (kernel-reducible list-of-characters implementation). -/
def strLower (s : String) : String := ⟨s.data.map Char.toLower⟩

/-- Python `str.strip()`: drop leading and trailing whitespace. -/
def strTrim (s : String) : String :=
  ⟨((s.data.dropWhile Char.isWhitespace).reverse.dropWhile Char.isWhitespace).reverse⟩

/-- `round(a / b)` to the nearest integer, ties to even, for `0 < b`
(floor division plus a remainder comparison). -/
def divRoundHalfEven (a b : ℤ) : ℤ :=
  let f := a.fdiv b
  let r := a.fmod b
  if 2 * r < b then f
  else if b < 2 * r then f + 1
  else if f % 2 = 0 then f else f + 1

/-- The Python value `round(100 * cnt / denom, 1)`, represented exactly in
tenths of a percent. -/
def pctTenths (cnt denom : ℕ) : ℤ := divRoundHalfEven (1000 * (cnt : ℤ)) (denom : ℤ)

/-- Insert an element into a descending-sorted list, after every element
whose key is at least as large (so that the stable sort below keeps ties
in their incoming order). -/
def insertDesc {β κ : Type} [LinearOrder κ] (key : β → κ) (v : β) : List β → List β
  | [] => [v]
  | x :: xs => if key x ≤ key v then v :: x :: xs else x :: insertDesc key v xs

/-- pandas stable descending sort (`sort_values(..., ascending=False)` /
the sorting step of `value_counts()`): sort by the key, descending,
keeping ties in their incoming order. -/
def sortDescBy {β κ : Type} [LinearOrder κ] (key : β → κ) : List β → List β
  | [] => []
  | v :: l => insertDesc key v (sortDescBy key l)

/-- Lexicographic codepoint order on character lists (Python string
comparison). -/
def charListLE : List Char → List Char → Bool
  | [], _ => true
  | _ :: _, [] => false
  | a :: as, b :: bs =>
    if a.toNat < b.toNat then true
    else if b.toNat < a.toNat then false
    else charListLE as bs

/-- Python string `<=` (codepoint lexicographic). -/
def strLE (a b : String) : Bool := charListLE a.data b.data

/-- Insert a string into an ascending-sorted list of strings. -/
def insertAscStr (v : String) : List String → List String
  | [] => [v]
  | x :: xs => if strLE v x then v :: x :: xs else x :: insertAscStr v xs

/-- Ascending sort of strings (`groupby(..., sort=True)` key order). -/
def sortAscStr : List String → List String
  | [] => []
  | v :: l => insertAscStr v (sortAscStr l)

/-- Auxiliary for `dedupFirst`: drop elements already seen. -/
def dedupFirstAux {α : Type} [DecidableEq α] (seen : List α) : List α → List α
  | [] => []
  | v :: rest =>
    if seen.contains v then dedupFirstAux seen rest
    else v :: dedupFirstAux (v :: seen) rest

/-- The distinct elements of a list in order of first appearance (the key
order produced by the counting hash table behind `value_counts()`). -/
def dedupFirst {α : Type} [DecidableEq α] (l : List α) : List α :=
  dedupFirstAux [] l

/-- `Series.value_counts()`: pairs of distinct value and its number of
occurrences, sorted by count descending, ties in first-appearance order. -/
def valueCounts {α : Type} [DecidableEq α] (l : List α) : List (α × ℕ) :=
  sortDescBy (fun p => p.2) ((dedupFirst l).map (fun v => (v, l.count v)))

/-- One row of a frequency table: answer, count, percent (in tenths). -/
structure FreqRow where
  answer : PyVal
  count : ℕ
  percent : ℤ
deriving DecidableEq

/-- Sum of the count column of a frequency table. -/
def sumCounts (tab : List FreqRow) : ℕ := (tab.map (fun r => r.count)).sum

/-- The sentinel label substituted for missing values by `freq_single`
when `include_null=True` ("No data" in Armenian). -/
def noDataLabel : String := "Տվյալներ չկան"

/-- Null handling of `freq_single`: `fillna(sentinel)` when
`include_null` is set, `dropna()` otherwise. -/
def handleNull (col : List (Option PyVal)) (includeNull : Bool) : List PyVal :=
  if includeNull then col.map (fun c => c.getD (.vstr noDataLabel))
  else col.filterMap id

/-- `series[~series.isin(exclude_values)]`, applied only when the argument
is not `None` (`if exclude_values is not None`). -/
def applyExclude (excl : Option (List PyVal)) (s : List PyVal) : List PyVal :=
  match excl with
  | some ex => s.filter (fun v => !(ex.contains v))
  | none => s

/-- `series.map(mapping).fillna(series.astype(str))`: a mapped code becomes
its label, anything else falls back to its literal string form. -/
def labelOf (m : List (PyVal × String)) (v : PyVal) : PyVal :=
  match m.lookup v with
  | some l => .vstr l
  | none => .vstr v.pyStr

/-- The mapping step of `freq_single`, skipped when no mapping is given. -/
def applyMapping (m : Option (List (PyVal × String))) (s : List PyVal) : List PyVal :=
  match m with
  | some mm => s.map (labelOf mm)
  | none => s

/-- `value_counts` → drop zero-count rows → percent column over the sum of
the remaining counts, rounded to one decimal. -/
def freqTabOf (series : List PyVal) : List FreqRow :=
  let vc := (valueCounts series).filter (fun p => decide (0 < p.2))
  let total : ℕ := (vc.map (fun p => p.2)).sum
  vc.map (fun p => ⟨p.1, p.2, pctTenths p.2 total⟩)

/-- `freq_single` (src/app.py:158-187; the src/section2.py and
src/section_demography.py copies are identical, and the src/section3.py /
src/section4.py copies specialize `include_null` to false): frequency
table for a single-answer question. -/
def freq_single (col : List (Option PyVal)) (mapping : Option (List (PyVal × String)))
    (excl : Option (List PyVal)) (includeNull : Bool) : List FreqRow :=
  let series := applyMapping mapping (applyExclude excl (handleNull col includeNull))
  if series.isEmpty then [] else freqTabOf series

/-- The SEX column of the C2 scenario: values 1,1,2,2,2,NA,NA,1,2,1. -/
def sexCol : List (Option PyVal) :=
  [some (.vint 1), some (.vint 1), some (.vint 2), some (.vint 2), some (.vint 2),
   none, none, some (.vint 1), some (.vint 2), some (.vint 1)]

/-- The label mapping of the C2 scenario. -/
def sexMap : List (PyVal × String) := [(.vint 1, "Male"), (.vint 2, "Female")]

/-- A dataframe: the declared column names and one cell function per row. -/
structure Dframe where
  colNames : List String
  rows : List (String → Option PyVal)

/-- The column of a dataframe, one optional cell per row. -/
def Dframe.col (df : Dframe) (c : String) : List (Option PyVal) :=
  df.rows.map (fun r => r c)

/-- Python `dict` assignment `d[k] = v`: replace the value at the first
matching key in place, or append a fresh key. -/
def dictSet : List (String × ℕ) → String → ℕ → List (String × ℕ)
  | [], k, v => [(k, v)]
  | p :: d, k, v => if p.1 == k then (p.1, v) :: d else p :: dictSet d k v

/-- Python `d[k] = d.get(k, 0) + 1`: increment the value at the first
matching key in place, or append the key with value 1. -/
def dictAdd : List (String × ℕ) → String → List (String × ℕ)
  | [], k => [(k, 1)]
  | p :: d, k => if p.1 == k then (p.1, p.2 + 1) :: d else p :: dictAdd d k

/-- `labels.get(c, c)`. -/
def labelsGet (labels : List (String × String)) (c : String) : String :=
  (labels.lookup c).getD c

/-- `df[c].astype(str).str.upper().eq("YES").sum()`: the affirmative count
used by section2/app `freq_multi`, `freq_multi_yes` and
`combine_tom_other_promp` (case-insensitive "YES" only). -/
def yesCountUpper (col : List (Option PyVal)) : ℕ :=
  (col.map cellStr).countP (fun s => strUpper s == "YES")

/-- The affirmative token list of section4 `freq_multi`
(`series.isin(["1", "1.0", "Yes", "True", "checked"])`, case-sensitive). -/
def affirmTokens : List String := ["1", "1.0", "Yes", "True", "checked"]

/-- `df[c].dropna().astype(str).isin(affirmTokens).sum()`: the affirmative
count used by section4 `freq_multi`. -/
def yesCountTokens (col : List (Option PyVal)) : ℕ :=
  ((col.filterMap id).map PyVal.pyStr).countP (fun s => affirmTokens.contains s)

/-- The counting loop shared by both `freq_multi` variants: for each
present column whose affirmative count is positive, store that count under
the column's label (`counts[label] = cnt`). -/
def optionCountsFrom (d : List (String × ℕ)) (labels : List (String × String))
    (cnt : String → ℕ) (cs : List String) : List (String × ℕ) :=
  cs.foldl (fun d c =>
    if 0 < cnt c then dictSet d (labelsGet labels c) (cnt c) else d) d

/-- `freq_multi` (src/section2.py:50-73, identical in src/app.py:190-213):
frequency table for indicator-column multi-select questions, a record
selecting an option when its value uppercases to "YES"; the percent
denominator is the sum of the option counts. -/
def freq_multi (df : Dframe) (cols : List String) (labels : List (String × String)) :
    List FreqRow :=
  let present := cols.filter (fun c => df.colNames.contains c)
  if present.isEmpty then [] else
  let counts := optionCountsFrom [] labels (fun c => yesCountUpper (df.col c)) present
  if counts.isEmpty then [] else
  let total := (counts.map (fun p => p.2)).sum
  sortDescBy (fun r => r.percent)
    (counts.map (fun p => (⟨.vstr p.1, p.2, pctTenths p.2 total⟩ : FreqRow)))

/-- `freq_multi` (src/section4.py:65-107): frequency table for
indicator-column multi-select questions, a record selecting an option when
its non-missing value's string form is exactly one of
"1"/"1.0"/"Yes"/"True"/"checked"; the percent denominator is the number of
records of the (filtered) dataframe, with percent 0 when it is empty. -/
def freq_multi_sec4 (df : Dframe) (cols : List String) (labels : List (String × String)) :
    List FreqRow :=
  let present := cols.filter (fun c => df.colNames.contains c)
  if present.isEmpty then [] else
  let counts := optionCountsFrom [] labels (fun c => yesCountTokens (df.col c)) present
  if counts.isEmpty then [] else
  let n := df.rows.length
  sortDescBy (fun r => r.percent)
    (counts.map (fun p =>
      (⟨.vstr p.1, p.2, if 0 < n then pctTenths p.2 n else 0⟩ : FreqRow)))

/-- The numbered slot column name `f"{col_pre}{i}"`. -/
def slotCol (pre : String) (i : ℕ) : String := pre ++ toString i

/-- `if exclude_values:` truthiness guard of `freq_multi_numbered`: the
exclusion filter is skipped both for `None` and for an empty set. -/
def applyExcludeTruthy (excl : Option (List PyVal)) (s : List PyVal) : List PyVal :=
  match excl with
  | some ex => if ex.isEmpty then s else s.filter (fun v => !(ex.contains v))
  | none => s

/-- The eligible slot values scanned by `freq_multi_numbered`: for each
slot column present in the dataframe, its non-missing values with the
excluded codes removed, concatenated in slot order. -/
def numberedCells (df : Dframe) (pre : String) (maxNum : ℕ)
    (excl : Option (List PyVal)) : List PyVal :=
  (List.range' 1 maxNum).flatMap (fun i =>
    if df.colNames.contains (slotCol pre i) then
      applyExcludeTruthy excl ((df.col (slotCol pre i)).filterMap id)
    else [])

/-- The counting loop of `freq_multi_numbered`, starting from an arbitrary
accumulated dict: each eligible slot value that is a key of the mapping
increments its label's count by one. -/
def numberedCountsFrom (d : List (String × ℕ)) (cells : List PyVal)
    (mapping : List (PyVal × String)) : List (String × ℕ) :=
  cells.foldl (fun d v =>
    match mapping.lookup v with
    | some lab => dictAdd d lab
    | none => d) d

/-- The counting loop of `freq_multi_numbered` (initially empty dict). -/
def numberedCounts (cells : List PyVal) (mapping : List (PyVal × String)) :
    List (String × ℕ) :=
  numberedCountsFrom [] cells mapping

/-- `freq_multi_numbered` (src/section3.py:53-94): frequency table for
multi-select questions stored as numbered slot columns; the percent
denominator is the sum of all counts. -/
def freq_multi_numbered (df : Dframe) (pre : String) (maxNum : ℕ)
    (mapping : List (PyVal × String)) (excl : Option (List PyVal)) : List FreqRow :=
  let counts := numberedCounts (numberedCells df pre maxNum excl) mapping
  if counts.isEmpty then [] else
  let total := (counts.map (fun p => p.2)).sum
  sortDescBy (fun r => r.percent)
    (counts.map (fun p => (⟨.vstr p.1, p.2, pctTenths p.2 total⟩ : FreqRow)))

/-- Python `"...".rstrip("_")`: drop trailing underscores. -/
def rstripUnderscore (s : String) : String :=
  ⟨(s.data.reverse.dropWhile (fun c => c == '_')).reverse⟩

/-- One slot of the `freq_multi_yes` counting loop: if the column is
present, its affirmative count positive, and its code a key of the
mapping, store the count under the code's label. -/
def yesSlotStep (df : Dframe) (mapping : List (Int × String))
    (d : List (String × ℕ)) (cn : String) (k : Int) : List (String × ℕ) :=
  if df.colNames.contains cn then
    if 0 < yesCountUpper (df.col cn) then
      match mapping.lookup k with
      | some lab => dictSet d lab (yesCountUpper (df.col cn))
      | none => d
    else d
  else d

/-- `freq_multi_yes` (src/section3.py:97-136): frequency table for
prompted questions where "YES" means selected, over slot columns 1..max
plus the optional `_98` / `_999` columns; the percent denominator is the
sum of the counts. -/
def freq_multi_yes (df : Dframe) (pre : String) (maxNum : ℕ)
    (mapping : List (Int × String)) : List FreqRow :=
  let base := (List.range' 1 maxNum).foldl (fun d i =>
    yesSlotStep df mapping d (slotCol pre i) (i : Int)) []
  let counts := ([98, 999] : List Int).foldl (fun d k =>
    yesSlotStep df mapping d (rstripUnderscore pre ++ "_" ++ toString k) k) base
  if counts.isEmpty then [] else
  let total := (counts.map (fun p => p.2)).sum
  sortDescBy (fun r => r.percent)
    (counts.map (fun p => (⟨.vstr p.1, p.2, pctTenths p.2 total⟩ : FreqRow)))

/-- The per-channel counters of `combine_tom_other_promp`
(`{"TOM": 0, "Other": 0, "Prompted": 0}`). -/
structure Counts3 where
  tom : ℕ
  other : ℕ
  prompted : ℕ
deriving DecidableEq

/-- Upsert into the `all_channels` dict: create the zero record for a
fresh channel, then update one field (Python
`if channel not in all_channels: all_channels[channel] = zeros` followed
by a field assignment). -/
def chanUpd : List (PyVal × Counts3) → PyVal → (Counts3 → Counts3) →
    List (PyVal × Counts3)
  | [], k, f => [(k, f ⟨0, 0, 0⟩)]
  | p :: d, k, f => if p.1 == k then (p.1, f p.2) :: d else p :: chanUpd d k f

/-- `str(channel_name).lower() in ["other", "nan", "none"]`: top-of-mind
labels skipped as generic placeholders. -/
def tomSkip (v : PyVal) : Bool := ["other", "nan", "none"].contains (strLower v.pyStr)

/-- The top-of-mind part of `combine_tom_other_promp`
(src/section3.py:153-170): count the non-missing top-of-mind names, after
optionally filtering out the label names of excluded mapped codes, and
record each non-placeholder name's count. -/
def tomChannels (df : Dframe) (tomCol : String) (mapping : List (Int × String))
    (excl : Option (List Int)) : List (PyVal × Counts3) :=
  if df.colNames.contains tomCol then
    let s0 := (df.col tomCol).filterMap id
    let s1 :=
      match excl with
      | some ex =>
        if ex.isEmpty then s0
        else
          let exNames : List PyVal :=
            (ex.filter (fun v => (mapping.lookup v).isSome)).map
              (fun v => .vstr ((mapping.lookup v).getD ""))
          s0.filter (fun v => !(exNames.contains v))
      | none => s0
    (valueCounts s1).foldl (fun d p =>
      if tomSkip p.1 then d
      else chanUpd d p.1 (fun c => ⟨p.2, c.other, c.prompted⟩)) []
  else []

/-- One iteration of the unprompted-other loop of `combine_tom_other_promp`
(src/section3.py:173-185). -/
def otherStep (df : Dframe) (otherPre : String) (mapping : List (Int × String))
    (d : List (PyVal × Counts3)) (i : ℕ) : List (PyVal × Counts3) :=
  if df.colNames.contains (slotCol otherPre i) then
    if 0 < yesCountUpper (df.col (slotCol otherPre i)) then
      match mapping.lookup (i : Int) with
      | some ch => chanUpd d (.vstr ch)
          (fun c => ⟨c.tom, yesCountUpper (df.col (slotCol otherPre i)), c.prompted⟩)
      | none => d
    else d
  else d

/-- One iteration of the prompted loop of `combine_tom_other_promp`
(src/section3.py:187-198). -/
def promptedStep (df : Dframe) (prompPre : String) (mapping : List (Int × String))
    (d : List (PyVal × Counts3)) (i : ℕ) : List (PyVal × Counts3) :=
  if df.colNames.contains (slotCol prompPre i) then
    if 0 < yesCountUpper (df.col (slotCol prompPre i)) then
      match mapping.lookup (i : Int) with
      | some ch => chanUpd d (.vstr ch)
          (fun c => ⟨c.tom, c.other, yesCountUpper (df.col (slotCol prompPre i))⟩)
      | none => d
    else d
  else d

/-- One iteration of the `_98` / `_999` prompted loop of
`combine_tom_other_promp` (src/section3.py:200-211). -/
def suffixStep (df : Dframe) (prompPre : String) (mapping : List (Int × String))
    (excl : Option (List Int)) (d : List (PyVal × Counts3)) (k : Int) :
    List (PyVal × Counts3) :=
  if (match excl with
      | some ex => !ex.isEmpty && ex.contains k
      | none => false) then d
  else
    let cn := rstripUnderscore prompPre ++ "_" ++ toString k
    if df.colNames.contains cn then
      match mapping.lookup k with
      | some ch =>
        if 0 < yesCountUpper (df.col cn) then
          chanUpd d (.vstr ch) (fun c => ⟨c.tom, c.other, yesCountUpper (df.col cn)⟩)
        else d
      | none => d
    else d

/-- The `all_channels` collection of `combine_tom_other_promp`
(src/section3.py:150-211): top-of-mind name counts, then per-code "Yes"
counts for the unprompted-other and prompted indicator columns, then the
optional `_98` / `_999` prompted columns. -/
def collectChannels (df : Dframe) (tomCol otherPre prompPre : String) (maxNum : ℕ)
    (mapping : List (Int × String)) (excl : Option (List Int)) :
    List (PyVal × Counts3) :=
  ([98, 999] : List Int).foldl (suffixStep df prompPre mapping excl)
    ((List.range' 1 maxNum).foldl (promptedStep df prompPre mapping)
      ((List.range' 1 maxNum).foldl (otherStep df otherPre mapping)
        (tomChannels df tomCol mapping excl)))

/-- One row of the combination table: channel and the four percentage
columns (tenths of a percent). -/
structure CombRow where
  channel : PyVal
  tomPct : ℤ
  otherPct : ℤ
  promptedPct : ℤ
  totalPct : ℤ
deriving DecidableEq

/-- `combine_tom_other_promp` (src/section3.py:139-231): combine
top-of-mind, unprompted-other and prompted counts into percentage rows
over the fixed denominator `len(df)`, sorted descending by Total. -/
def combine_tom_other_promp (df : Dframe) (tomCol otherPre prompPre : String)
    (maxNum : ℕ) (mapping : List (Int × String)) (excl : Option (List Int)) :
    List CombRow :=
  let chans := collectChannels df tomCol otherPre prompPre maxNum mapping excl
  if chans.isEmpty then [] else
  let n := df.rows.length
  sortDescBy (fun r => r.totalPct)
    (chans.map (fun p =>
      (⟨p.1, pctTenths p.2.tom n, pctTenths p.2.other n, pctTenths p.2.prompted n,
        pctTenths (p.2.tom + p.2.other + p.2.prompted) n⟩ : CombRow)))

/-- The comment slot column names `f"{pre}_{i}comment"` for i in
1..maxSlots (`process_open_ended_comments`). -/
def commentCols (pre : String) (maxSlots : ℕ) : List String :=
  (List.range' 1 maxSlots).map (fun i => pre ++ "_" ++ toString i ++ "comment")

/-- The placeholder strings replaced by NA when counting a respondent's
mentions (`.replace(["nan", "None", "0", ""], pd.NA)`): exact,
case-sensitive matches after stripping. -/
def segPlaceholders : List String := ["nan", "None", "0", ""]

/-- The per-respondent mention count of `process_open_ended_comments`
(src/section4.py:130-133): the number of slot cells whose stripped string
form is not one of the exact placeholder strings. -/
def rowMentionCount (validCols : List String) (r : String → Option PyVal) : ℕ :=
  (validCols.map (fun c => cellStr (r c))).countP
    (fun s => !(segPlaceholders.contains (strTrim s)))

/-- The placeholder tokens skipped when collecting mentions
(`if v_clean.lower() not in ["nan", "", "0", "none"]`): case-insensitive. -/
def mentionPlaceholders : List String := ["nan", "", "0", "none"]

/-- The mention collection loop of `process_open_ended_comments`
(src/section4.py:142-149): per column, the stripped string forms of the
non-missing cells whose lowercase form is not a placeholder. -/
def collectMentions (df : Dframe) (validCols : List String) : List String :=
  validCols.flatMap (fun c =>
    (((df.col c).filterMap id).map PyVal.pyStr).filterMap (fun v =>
      let vc := strTrim v
      if mentionPlaceholders.contains (strLower vc) then none else some vc))

/-- The grouping step of `process_open_ended_comments`
(src/section4.py:154-167): group the mentions by lowercase normalized key
(`groupby` sorts the keys), count each group, keep the first-encountered
original text as representative, and sort descending by count.  A row is
(normalized key, count, representative text). -/
def groupMentions (ms : List String) : List (String × ℕ × String) :=
  sortDescBy (fun g => g.2.1)
    ((sortAscStr (dedupFirst (ms.map (fun m => strLower m)))).map (fun k =>
      (k, ms.countP (fun m => strLower m == k),
          ((ms.find? (fun m => strLower m == k)).getD ""))))

/-- The mentions table returned by `process_open_ended_comments`
(`grouped[["Mentioned", "Count"]]`): representative text and count. -/
def mentionsTable (df : Dframe) (validCols : List String) : List (String × ℕ) :=
  (groupMentions (collectMentions df validCols)).map (fun g => (g.2.2, g.2.1))

/-- `[c for c in comment_cols if c in df.columns]`. -/
def validCommentCols (df : Dframe) (pre : String) (maxSlots : ℕ) : List String :=
  (commentCols pre maxSlots).filter (fun c => df.colNames.contains c)

/-- A demographic filter predicate of `render_filters`
(src/filters.py:14-212): a column name and the list of allowed values
(the active `multiselect` selection, already reverse-mapped to raw
codes where applicable). -/
def predHolds (p : String × List PyVal) (r : String → Option PyVal) : Bool :=
  match r p.1 with
  | some v => p.2.contains v
  | none => false

/-- `filt_df = filt_df[filt_df[col].isin(allowed)]`: keep the rows whose
value in the predicate's column is one of the allowed values. -/
def applyPred (rows : List (String → Option PyVal)) (p : String × List PyVal) :
    List (String → Option PyVal) :=
  rows.filter (fun r => predHolds p r)

/-- The sequential application of the active filter predicates performed
by `render_filters`. -/
def applyPreds (rows : List (String → Option PyVal))
    (ps : List (String × List PyVal)) : List (String → Option PyVal) :=
  ps.foldl applyPred rows

/-- The C3 scenario dataframe: two respondents with numbered slots
[1, 2, NA] and [2, NA, NA]. -/
def dfC3 : Dframe :=
  ⟨["P1", "P2", "P3"],
   [fun c => if c = "P1" then some (.vint 1) else
             if c = "P2" then some (.vint 2) else none,
    fun c => if c = "P1" then some (.vint 2) else none]⟩

/-- The C3 scenario code mapping. -/
def mapC3 : List (PyVal × String) := [(.vint 1, "X"), (.vint 2, "Y")]

/-- The C5 scenario dataframe: one respondent with comment slots
"A", "", "a", "B". -/
def dfC5 : Dframe :=
  ⟨["C_1comment", "C_2comment", "C_3comment", "C_4comment"],
   [fun c => if c = "C_1comment" then some (.vstr "A") else
             if c = "C_2comment" then some (.vstr "") else
             if c = "C_3comment" then some (.vstr "a") else
             if c = "C_4comment" then some (.vstr "B") else none]⟩

/-- A one-respondent dataframe whose single indicator cell holds the
lowercase text "yes". -/
def dfLowerYes : Dframe := ⟨["A"], [fun c => if c = "A" then some (.vstr "yes") else none]⟩

/-- A one-respondent dataframe whose single indicator cell holds "True". -/
def dfMixedTrue : Dframe := ⟨["A"], [fun c => if c = "A" then some (.vstr "True") else none]⟩

/-- A one-respondent dataframe whose single indicator cell holds "TRUE". -/
def dfUpperTrue : Dframe := ⟨["A"], [fun c => if c = "A" then some (.vstr "TRUE") else none]⟩

/-- A one-respondent dataframe selecting two indicator options at once. -/
def dfTwoSel : Dframe :=
  ⟨["A", "B"],
   [fun c => if c = "A" then some (.vstr "1") else
             if c = "B" then some (.vstr "1") else none]⟩

/-- A one-respondent dataframe with a single numbered slot holding the
unmapped code 5. -/
def dfUnmapped : Dframe := ⟨["P1"], [fun c => if c = "P1" then some (.vint 5) else none]⟩

/-- A one-respondent dataframe for the combination table: top-of-mind
"Alpha", and affirmative unprompted-other and prompted cells for code 1. -/
def dfComb : Dframe :=
  ⟨["T", "O1", "P1"],
   [fun c => if c = "T" then some (.vstr "Alpha") else
             if c = "O1" then some (.vstr "Yes") else
             if c = "P1" then some (.vstr "Yes") else none]⟩

/-- Lookup in a counting dict (0 for an absent key). -/
def dlookup : List (String × ℕ) → String → ℕ
  | [], _ => 0
  | p :: d, q => if p.1 == q then p.2 else dlookup d q

/-- The sum of the values of a counting dict. -/
def sumVals (d : List (String × ℕ)) : ℕ := (d.map (fun p => p.2)).sum

/-- The keys of a counting dict. -/
def keysOf (d : List (String × ℕ)) : List String := d.map (fun p => p.1)

/-- Additional concrete dataframe: one respondent whose single comment slot
holds the literal text "NONE". -/
def dfNoneWord : Dframe :=
  ⟨["C_1comment"], [fun c => if c = "C_1comment" then some (.vstr "NONE") else none]⟩

/-- Additional concrete dataframe: one respondent with an affirmative
prompted slot column Q1. -/
def dfYesW : Dframe := ⟨["Q1"], [fun c => if c = "Q1" then some (.vstr "Yes") else none]⟩

/-! ### Lemmas about the stable descending sort -/

theorem insertDesc_perm {β κ : Type} [LinearOrder κ] (key : β → κ) (v : β)
    (l : List β) : List.Perm (insertDesc key v l) (v :: l) := by
  induction l with
  | nil => exact List.Perm.refl _
  | cons x xs ih =>
    by_cases h : key x ≤ key v
    · simp [insertDesc, h]
    · simp only [insertDesc, if_neg h]
      exact (List.Perm.cons x ih).trans (List.Perm.swap v x xs)

theorem sortDescBy_perm {β κ : Type} [LinearOrder κ] (key : β → κ)
    (l : List β) : List.Perm (sortDescBy key l) l := by
  induction l with
  | nil => exact List.Perm.refl _
  | cons v l ih =>
    exact (insertDesc_perm key v (sortDescBy key l)).trans (List.Perm.cons v ih)

theorem mem_sortDescBy {β κ : Type} [LinearOrder κ] {key : β → κ}
    {l : List β} {x : β} : x ∈ sortDescBy key l ↔ x ∈ l :=
  (sortDescBy_perm key l).mem_iff

theorem pairwise_insertDesc {β κ : Type} [LinearOrder κ] {key : β → κ} {v : β}
    {l : List β} (h : l.Pairwise (fun a b => key b ≤ key a)) :
    (insertDesc key v l).Pairwise (fun a b => key b ≤ key a) := by
  induction l with
  | nil => simp [insertDesc]
  | cons x xs ih =>
    rcases List.pairwise_cons.mp h with ⟨hx, hxs⟩
    by_cases hle : key x ≤ key v
    · simp only [insertDesc, if_pos hle]
      refine List.pairwise_cons.mpr ⟨?_, h⟩
      intro b hb
      rcases List.mem_cons.mp hb with h1 | h1
      · subst h1; exact hle
      · exact le_trans (hx b h1) hle
    · simp only [insertDesc, if_neg hle]
      refine List.pairwise_cons.mpr ⟨?_, ih hxs⟩
      intro b hb
      rcases List.mem_cons.mp ((insertDesc_perm key v xs).mem_iff.mp hb) with h1 | h2
      · subst h1; exact le_of_not_le hle
      · exact hx b h2

theorem pairwise_sortDescBy {β κ : Type} [LinearOrder κ] (key : β → κ)
    (l : List β) : (sortDescBy key l).Pairwise (fun a b => key b ≤ key a) := by
  induction l with
  | nil => simp [sortDescBy]
  | cons v l ih => exact pairwise_insertDesc ih

/-! ### Lemmas about `dedupFirst` and `valueCounts` -/

theorem dedupFirstAux_cons_mem {α : Type} [DecidableEq α] {seen : List α} {v : α}
    (rest : List α) (h : v ∈ seen) :
    dedupFirstAux seen (v :: rest) = dedupFirstAux seen rest := by
  simp [dedupFirstAux, h]

theorem dedupFirstAux_cons_not_mem {α : Type} [DecidableEq α] {seen : List α} {v : α}
    (rest : List α) (h : v ∉ seen) :
    dedupFirstAux seen (v :: rest) = v :: dedupFirstAux (v :: seen) rest := by
  simp [dedupFirstAux, h]

theorem mem_dedupFirstAux {α : Type} [DecidableEq α] {seen l : List α} {x : α} :
    x ∈ dedupFirstAux seen l ↔ x ∈ l ∧ x ∉ seen := by
  induction l generalizing seen with
  | nil => simp [dedupFirstAux]
  | cons v rest ih =>
    by_cases hv : v ∈ seen
    · rw [dedupFirstAux_cons_mem rest hv, ih]
      constructor
      · rintro ⟨h1, h2⟩
        exact ⟨List.mem_cons_of_mem v h1, h2⟩
      · rintro ⟨h1, h2⟩
        rcases List.mem_cons.mp h1 with h3 | h3
        · exact absurd (h3 ▸ hv) h2
        · exact ⟨h3, h2⟩
    · rw [dedupFirstAux_cons_not_mem rest hv]
      simp only [List.mem_cons, ih, List.mem_cons]
      constructor
      · rintro (h1 | ⟨h1, h2⟩)
        · exact ⟨Or.inl h1, h1 ▸ hv⟩
        · exact ⟨Or.inr h1, fun hs => h2 (Or.inr hs)⟩
      · rintro ⟨h1 | h1, h2⟩
        · exact Or.inl h1
        · by_cases hx : x = v
          · exact Or.inl hx
          · refine Or.inr ⟨h1, fun hs => ?_⟩
            rcases hs with h3 | h3
            · exact hx h3
            · exact h2 h3

theorem nodup_dedupFirstAux {α : Type} [DecidableEq α] (seen l : List α) :
    (dedupFirstAux seen l).Nodup := by
  induction l generalizing seen with
  | nil => simp [dedupFirstAux]
  | cons v rest ih =>
    by_cases hv : v ∈ seen
    · rw [dedupFirstAux_cons_mem rest hv]
      exact ih seen
    · rw [dedupFirstAux_cons_not_mem rest hv]
      refine List.nodup_cons.mpr ⟨?_, ih (v :: seen)⟩
      intro hmem
      exact (mem_dedupFirstAux.mp hmem).2 (List.mem_cons_self v seen)

theorem mem_dedupFirst {α : Type} [DecidableEq α] {l : List α} {x : α} :
    x ∈ dedupFirst l ↔ x ∈ l := by
  simp [dedupFirst, mem_dedupFirstAux]

theorem nodup_dedupFirst {α : Type} [DecidableEq α] (l : List α) :
    (dedupFirst l).Nodup := nodup_dedupFirstAux [] l

theorem dedupFirst_perm_dedup {α : Type} [DecidableEq α] (l : List α) :
    List.Perm (dedupFirst l) l.dedup := by
  refine (List.perm_ext_iff_of_nodup (nodup_dedupFirst l) l.nodup_dedup).mpr ?_
  intro a
  simp [mem_dedupFirst, List.mem_dedup]

theorem mem_valueCounts {α : Type} [DecidableEq α] {l : List α} {p : α × ℕ} :
    p ∈ valueCounts l ↔ p.1 ∈ l ∧ p.2 = l.count p.1 := by
  unfold valueCounts
  rw [mem_sortDescBy]
  constructor
  · intro hp
    rcases List.mem_map.mp hp with ⟨v, hv, hveq⟩
    rw [← hveq]
    exact ⟨mem_dedupFirst.mp hv, rfl⟩
  · rintro ⟨h1, h2⟩
    apply List.mem_map.mpr
    refine ⟨p.1, mem_dedupFirst.mpr h1, ?_⟩
    exact Prod.ext rfl h2.symm

theorem valueCounts_count_pos {α : Type} [DecidableEq α] {l : List α} {p : α × ℕ}
    (hp : p ∈ valueCounts l) : 0 < p.2 := by
  rcases mem_valueCounts.mp hp with ⟨h1, h2⟩
  rw [h2]
  exact List.count_pos_iff.mpr h1

theorem sum_valueCounts {α : Type} [DecidableEq α] (l : List α) :
    ((valueCounts l).map (fun p => p.2)).sum = l.length := by
  unfold valueCounts
  rw [((sortDescBy_perm (fun p : α × ℕ => p.2) _).map (fun p => p.2)).sum_eq]
  rw [List.map_map]
  show ((dedupFirst l).map (fun v => l.count v)).sum = l.length
  rw [((dedupFirst_perm_dedup l).map (fun v => l.count v)).sum_eq]
  exact List.sum_map_count_dedup_eq_length l

theorem filter_valueCounts_pos {α : Type} [DecidableEq α] (l : List α) :
    (valueCounts l).filter (fun p => decide (0 < p.2)) = valueCounts l := by
  apply List.filter_eq_self.mpr
  intro p hp
  simpa using valueCounts_count_pos hp

theorem sum_freqTabOf (s : List PyVal) : sumCounts (freqTabOf s) = s.length := by
  simp only [freqTabOf, sumCounts, filter_valueCounts_pos, List.map_map]
  exact sum_valueCounts s

theorem freqTabOf_count_pos {s : List PyVal} {r : FreqRow}
    (hr : r ∈ freqTabOf s) : 0 < r.count := by
  simp only [freqTabOf] at hr
  rcases List.mem_map.mp hr with ⟨p, hp, hpe⟩
  have h2 := (List.mem_filter.mp hp).2
  rw [← hpe]
  simpa using h2

theorem exists_freqTabOf_row {s : List PyVal} {x : PyVal} (hx : x ∈ s) :
    ∃ r ∈ freqTabOf s, r.answer = x ∧ r.count = s.count x := by
  have hp : (x, s.count x) ∈ (valueCounts s).filter (fun p => decide (0 < p.2)) := by
    rw [filter_valueCounts_pos]
    exact mem_valueCounts.mpr ⟨hx, rfl⟩
  simp only [freqTabOf]
  exact ⟨_, List.mem_map_of_mem _ hp, rfl, rfl⟩

theorem length_applyMapping (m : Option (List (PyVal × String))) (s : List PyVal) :
    (applyMapping m s).length = s.length := by
  cases m <;> simp [applyMapping]

theorem sum_freq_single (col : List (Option PyVal))
    (mapping : Option (List (PyVal × String))) (excl : Option (List PyVal))
    (includeNull : Bool) :
    sumCounts (freq_single col mapping excl includeNull)
      = (applyExclude excl (handleNull col includeNull)).length := by
  unfold freq_single
  rw [← length_applyMapping mapping (applyExclude excl (handleNull col includeNull))]
  set s := applyMapping mapping (applyExclude excl (handleNull col includeNull)) with hs
  by_cases h : s.isEmpty
  · rw [if_pos h, List.isEmpty_iff.mp h]
    rfl
  · rw [if_neg h]
    exact sum_freqTabOf s

/-! ### Dictionary lemmas -/

theorem dlookup_dictAdd (d : List (String × ℕ)) (k q : String) :
    dlookup (dictAdd d k) q = dlookup d q + (if q = k then 1 else 0) := by
  induction d with
  | nil =>
    by_cases h : q = k
    · simp [dictAdd, dlookup, h]
    · simp [dictAdd, dlookup, h, Ne.symm h]
  | cons p d ih =>
    by_cases hb : p.1 = k
    · subst hb
      simp only [dictAdd, beq_self_eq_true, if_true]
      by_cases hq : p.1 = q
      · subst hq
        simp [dlookup]
      · simp [dlookup, hq, Ne.symm hq]
    · simp only [dictAdd, beq_iff_eq, hb, if_false]
      by_cases hq : p.1 = q
      · have hqk : ¬q = k := by
          rw [← hq]
          exact hb
        subst hq
        simp [dlookup, hqk]
      · simp only [dlookup, beq_iff_eq, hq, if_false]
        exact ih

theorem sumVals_dictAdd (d : List (String × ℕ)) (k : String) :
    sumVals (dictAdd d k) = sumVals d + 1 := by
  induction d with
  | nil => simp [dictAdd, sumVals]
  | cons p d ih =>
    by_cases hb : p.1 = k
    · simp [dictAdd, hb, sumVals]
      omega
    · simp only [dictAdd, beq_iff_eq, hb, if_false, sumVals, List.map_cons, List.sum_cons]
      have := ih
      simp only [sumVals] at this
      omega

theorem keysOf_dictAdd (d : List (String × ℕ)) (k : String) :
    keysOf (dictAdd d k) = if k ∈ keysOf d then keysOf d else keysOf d ++ [k] := by
  induction d with
  | nil => simp [dictAdd, keysOf]
  | cons p d ih =>
    by_cases hb : p.1 = k
    · simp [dictAdd, hb, keysOf]
    · simp only [dictAdd, beq_iff_eq, hb, if_false, keysOf, List.map_cons]
      simp only [keysOf] at ih
      rw [ih]
      by_cases hm : k ∈ List.map (fun p => p.1) d
      · simp [hm, Ne.symm hb]
      · simp [hm, Ne.symm hb]

theorem nodup_keysOf_dictAdd {d : List (String × ℕ)} (k : String)
    (h : (keysOf d).Nodup) : (keysOf (dictAdd d k)).Nodup := by
  rw [keysOf_dictAdd]
  by_cases hm : k ∈ keysOf d
  · simpa [hm] using h
  · simp only [hm, if_false]
    simp [List.nodup_append, h, hm]

theorem mem_dlookup {d : List (String × ℕ)} {k : String} {c : ℕ}
    (hnd : (keysOf d).Nodup) (h : (k, c) ∈ d) : dlookup d k = c := by
  induction d with
  | nil => cases h
  | cons p d ih =>
    have hnd2 : (p.1 :: keysOf d).Nodup := by
      simpa [keysOf] using hnd
    rcases List.nodup_cons.mp hnd2 with ⟨hp, hd⟩
    rcases List.mem_cons.mp h with h1 | h1
    · rw [← h1]
      simp [dlookup]
    · have hk : k ∈ keysOf d := by
        simp only [keysOf, List.mem_map]
        exact ⟨(k, c), h1, rfl⟩
      have hne : p.1 ≠ k := by
        intro hh
        rw [hh] at hp
        exact hp hk
      simp only [dlookup, beq_iff_eq, hne, if_false]
      exact ih hd h1

theorem dictAdd_pos {d : List (String × ℕ)} {k : String}
    (h : ∀ p ∈ d, 0 < p.2) : ∀ p ∈ dictAdd d k, 0 < p.2 := by
  induction d with
  | nil =>
    intro p hp
    rcases List.mem_singleton.mp hp with rfl
    exact Nat.one_pos
  | cons q d ih =>
    by_cases hb : q.1 = k
    · simp only [dictAdd, beq_iff_eq, hb, if_true]
      intro p hp
      rcases List.mem_cons.mp hp with h1 | h1
      · rw [h1]
        exact Nat.succ_pos _
      · exact h p (List.mem_cons_of_mem q h1)
    · simp only [dictAdd, beq_iff_eq, hb, if_false]
      intro p hp
      rcases List.mem_cons.mp hp with h1 | h1
      · rw [h1]
        exact h q (List.mem_cons_self q d)
      · exact ih (fun r hr => h r (List.mem_cons_of_mem q hr)) p h1

theorem dictSet_pos {d : List (String × ℕ)} {k : String} {v : ℕ}
    (h : ∀ p ∈ d, 0 < p.2) (hv : 0 < v) : ∀ p ∈ dictSet d k v, 0 < p.2 := by
  induction d with
  | nil =>
    intro p hp
    rcases List.mem_singleton.mp hp with rfl
    exact hv
  | cons q d ih =>
    by_cases hb : q.1 = k
    · simp only [dictSet, beq_iff_eq, hb, if_true]
      intro p hp
      rcases List.mem_cons.mp hp with h1 | h1
      · rw [h1]
        exact hv
      · exact h p (List.mem_cons_of_mem q h1)
    · simp only [dictSet, beq_iff_eq, hb, if_false]
      intro p hp
      rcases List.mem_cons.mp hp with h1 | h1
      · rw [h1]
        exact h q (List.mem_cons_self q d)
      · exact ih (fun r hr => h r (List.mem_cons_of_mem q hr)) p h1

theorem dictSet_of_fresh {d : List (String × ℕ)} {k : String} (v : ℕ)
    (h : k ∉ keysOf d) : dictSet d k v = d ++ [(k, v)] := by
  induction d with
  | nil => simp [dictSet]
  | cons q d ih =>
    have hb : q.1 ≠ k := by
      intro hh
      exact h (by simp [keysOf, hh])
    simp only [dictSet, beq_iff_eq, hb, if_false, List.cons_append]
    rw [ih (fun hm => h (by simp [keysOf] at hm ⊢; exact Or.inr hm))]

/-- A property preserved by every step of a left fold holds of the result. -/
theorem foldl_invariant {α β : Type} {P : β → Prop} (f : β → α → β)
    (h : ∀ b a, P b → P (f b a)) :
    ∀ (l : List α) (b : β), P b → P (l.foldl f b) := by
  intro l
  induction l with
  | nil => intro b hb; exact hb
  | cons a l ih =>
    intro b hb
    exact ih _ (h b a hb)

/-- A left fold whose step never changes the accumulator returns it. -/
theorem foldl_fixed {α β : Type} (f : β → α → β) (l : List α) (b : β)
    (h : ∀ d, ∀ a ∈ l, f d a = d) : l.foldl f b = b := by
  induction l generalizing b with
  | nil => rfl
  | cons a l ih =>
    rw [List.foldl_cons, h b a (List.mem_cons_self a l)]
    exact ih b (fun d a' ha' => h d a' (List.mem_cons_of_mem a ha'))

/-! ### Lemmas about the counting folds -/

theorem dlookup_numberedCountsFrom (mapping : List (PyVal × String))
    (cells : List PyVal) :
    ∀ (d : List (String × ℕ)) (k : String),
    dlookup (numberedCountsFrom d cells mapping) k
      = dlookup d k + cells.countP (fun v => mapping.lookup v == some k) := by
  induction cells with
  | nil =>
    intro d k
    simp [numberedCountsFrom]
  | cons v cells ih =>
    intro d k
    simp only [numberedCountsFrom, List.foldl_cons] at ih ⊢
    rw [List.countP_cons]
    cases hl : mapping.lookup v with
    | none =>
      rw [ih d k]
      simp [hl]
    | some lab =>
      rw [ih (dictAdd d lab) k, dlookup_dictAdd]
      by_cases hk : k = lab
      · subst hk
        simp [hl]
        omega
      · simp [hl, hk, Ne.symm hk]

theorem sumVals_numberedCountsFrom (mapping : List (PyVal × String))
    (cells : List PyVal) :
    ∀ (d : List (String × ℕ)),
    sumVals (numberedCountsFrom d cells mapping)
      = sumVals d + cells.countP (fun v => (mapping.lookup v).isSome) := by
  induction cells with
  | nil =>
    intro d
    simp [numberedCountsFrom]
  | cons v cells ih =>
    intro d
    simp only [numberedCountsFrom, List.foldl_cons] at ih ⊢
    rw [List.countP_cons]
    cases hl : mapping.lookup v with
    | none =>
      rw [ih d]
      simp [hl]
    | some lab =>
      rw [ih (dictAdd d lab), sumVals_dictAdd]
      simp [hl]
      omega

theorem nodup_keysOf_numberedCountsFrom (mapping : List (PyVal × String))
    (cells : List PyVal) {d : List (String × ℕ)} (h : (keysOf d).Nodup) :
    (keysOf (numberedCountsFrom d cells mapping)).Nodup := by
  refine foldl_invariant (P := fun b => (keysOf b).Nodup) _ ?_ cells d h
  intro b v hb
  cases hl : mapping.lookup v with
  | none => simpa [hl] using hb
  | some lab =>
    simp only [hl]
    exact nodup_keysOf_dictAdd lab hb

theorem numberedCounts_pos (mapping : List (PyVal × String)) (cells : List PyVal) :
    ∀ p ∈ numberedCounts cells mapping, 0 < p.2 := by
  unfold numberedCounts numberedCountsFrom
  refine foldl_invariant
    (P := fun b : List (String × ℕ) => ∀ p ∈ b, 0 < p.2) _ ?_ cells [] ?_
  · intro b v hb
    cases hl : mapping.lookup v with
    | none => simpa [hl] using hb
    | some lab =>
      simp only [hl]
      exact dictAdd_pos hb
  · intro p hp
    cases hp

theorem numberedCounts_entry {cells : List PyVal} {mapping : List (PyVal × String)}
    {k : String} {c : ℕ} (h : (k, c) ∈ numberedCounts cells mapping) :
    c = cells.countP (fun v => mapping.lookup v == some k) := by
  have hnd : (keysOf (numberedCounts cells mapping)).Nodup := by
    refine nodup_keysOf_numberedCountsFrom mapping cells ?_
    simp [keysOf]
  have h2 := mem_dlookup hnd h
  have h3 := dlookup_numberedCountsFrom mapping cells [] k
  simp only [numberedCounts] at h2
  rw [h2] at h3
  simpa [dlookup] using h3

theorem sumVals_numberedCounts (cells : List PyVal) (mapping : List (PyVal × String)) :
    sumVals (numberedCounts cells mapping)
      = cells.countP (fun v => (mapping.lookup v).isSome) := by
  have := sumVals_numberedCountsFrom mapping cells []
  simpa [numberedCounts, sumVals] using this

theorem optionCountsFrom_pos (labels : List (String × String)) (cnt : String → ℕ)
    (cs : List String) {d : List (String × ℕ)} (h : ∀ p ∈ d, 0 < p.2) :
    ∀ p ∈ optionCountsFrom d labels cnt cs, 0 < p.2 := by
  refine foldl_invariant (P := fun b => ∀ p ∈ b, 0 < p.2) _ ?_ cs d h
  intro b c hb
  by_cases hc : 0 < cnt c
  · rw [if_pos hc]
    exact dictSet_pos hb hc
  · rw [if_neg hc]
    exact hb

theorem sumVals_optionCountsFrom (labels : List (String × String)) (cnt : String → ℕ) :
    ∀ (cs : List String) (d : List (String × ℕ)),
    (cs.map (fun c => labelsGet labels c)).Nodup →
    (∀ c ∈ cs, labelsGet labels c ∉ keysOf d) →
    sumVals (optionCountsFrom d labels cnt cs) = sumVals d + (cs.map cnt).sum := by
  intro cs
  induction cs with
  | nil =>
    intro d _ _
    simp [optionCountsFrom, sumVals]
  | cons c cs ih =>
    intro d hnd hfresh
    rcases List.nodup_cons.mp hnd with ⟨hc, hnd2⟩
    simp only [optionCountsFrom, List.foldl_cons] at ih ⊢
    by_cases hcnt : 0 < cnt c
    · rw [if_pos hcnt]
      have hset := dictSet_of_fresh (d := d) (cnt c)
        (hfresh c (List.mem_cons_self c cs))
      have hfresh2 : ∀ x ∈ cs, labelsGet labels x ∉
          keysOf (dictSet d (labelsGet labels c) (cnt c)) := by
        intro x hx
        rw [hset]
        have h1 : labelsGet labels x ∉ keysOf d :=
          hfresh x (List.mem_cons_of_mem c hx)
        have h2 : labelsGet labels x ≠ labelsGet labels c := by
          intro hh
          apply hc
          show labelsGet labels c ∈ List.map (fun y => labelsGet labels y) cs
          rw [← hh]
          exact List.mem_map_of_mem (fun y => labelsGet labels y) hx
        simp only [keysOf, List.map_append, List.mem_append, List.map_cons,
          List.map_nil, List.mem_singleton, not_or]
        exact ⟨by simpa [keysOf] using h1, h2⟩
      rw [ih (dictSet d (labelsGet labels c) (cnt c)) hnd2 hfresh2, hset]
      simp only [sumVals, List.map_append, List.sum_append, List.map_cons,
        List.map_nil, List.sum_cons, List.sum_nil]
      omega
    · rw [if_neg hcnt]
      have hz : cnt c = 0 := by omega
      rw [ih d hnd2 (fun x hx => hfresh x (List.mem_cons_of_mem c hx))]
      simp [hz]

/-! ### Further helpers for the claim theorems -/

theorem yesSlotStep_pos {df : Dframe} {mapping : List (Int × String)}
    {d : List (String × ℕ)} (cn : String) (k : Int)
    (h : ∀ p ∈ d, 0 < p.2) : ∀ p ∈ yesSlotStep df mapping d cn k, 0 < p.2 := by
  unfold yesSlotStep
  by_cases h1 : df.colNames.contains cn
  · rw [if_pos h1]
    by_cases h2 : 0 < yesCountUpper (df.col cn)
    · rw [if_pos h2]
      cases mapping.lookup k with
      | none => exact h
      | some lab => exact dictSet_pos h h2
    · rw [if_neg h2]
      exact h
  · rw [if_neg h1]
    exact h

theorem sumCounts_rows (counts : List (String × ℕ)) (mk : String × ℕ → FreqRow)
    (hmk : ∀ p, (mk p).count = p.2) (key : FreqRow → ℤ) :
    sumCounts (sortDescBy key (counts.map mk)) = sumVals counts := by
  unfold sumCounts sumVals
  rw [((sortDescBy_perm key (counts.map mk)).map (fun r => r.count)).sum_eq]
  rw [List.map_map]
  congr 1
  exact List.map_congr_left (fun p _ => hmk p)

theorem mem_rows_of_counts {counts : List (String × ℕ)} {mk : String × ℕ → FreqRow}
    {key : FreqRow → ℤ} {r : FreqRow}
    (hr : r ∈ sortDescBy key (counts.map mk)) : ∃ p ∈ counts, r = mk p := by
  rcases List.mem_map.mp (mem_sortDescBy.mp hr) with ⟨p, hp, hpe⟩
  exact ⟨p, hp, hpe.symm⟩

theorem applyPreds_eq_filter (rows : List (String → Option PyVal))
    (ps : List (String × List PyVal)) :
    applyPreds rows ps = rows.filter (fun r => ps.all (fun p => predHolds p r)) := by
  induction ps generalizing rows with
  | nil =>
    simp [applyPreds, List.filter_true]
  | cons p ps ih =>
    show applyPreds (applyPred rows p) ps = _
    rw [ih]
    unfold applyPred
    rw [List.filter_filter]
    congr 1
    funext r
    rw [List.all_cons]
    exact Bool.and_comm _ _

theorem all_of_perm {α : Type} (f : α → Bool) {l₁ l₂ : List α}
    (h : List.Perm l₁ l₂) : l₁.all f = l₂.all f := by
  induction h with
  | nil => rfl
  | cons a _ ih => simp [List.all_cons, ih]
  | swap a b l =>
    simp only [List.all_cons]
    cases f a <;> cases f b <;> simp
  | trans _ _ ih1 ih2 => rw [ih1, ih2]

theorem applyPreds_perm (rows : List (String → Option PyVal))
    {ps₁ ps₂ : List (String × List PyVal)} (h : List.Perm ps₁ ps₂) :
    applyPreds rows ps₁ = applyPreds rows ps₂ := by
  rw [applyPreds_eq_filter, applyPreds_eq_filter]
  congr 1
  funext r
  exact all_of_perm (fun p => predHolds p r) h

theorem tomChannels_nil (cns : List String) (tomCol : String)
    (mapping : List (Int × String)) (excl : Option (List Int)) :
    tomChannels ⟨cns, []⟩ tomCol mapping excl = [] := by
  unfold tomChannels
  have hcol : (Dframe.mk cns []).col tomCol = [] := rfl
  cases excl with
  | none => simp [hcol, valueCounts, dedupFirst, dedupFirstAux, sortDescBy]
  | some ex =>
    by_cases he : ex.isEmpty <;>
      simp [hcol, he, valueCounts, dedupFirst, dedupFirstAux, sortDescBy]

theorem collectChannels_nil (cns : List String) (tomCol otherPre prompPre : String)
    (maxNum : ℕ) (mapping : List (Int × String)) (excl : Option (List Int)) :
    collectChannels ⟨cns, []⟩ tomCol otherPre prompPre maxNum mapping excl = [] := by
  have hyes : ∀ c : String, yesCountUpper ((Dframe.mk cns []).col c) = 0 :=
    fun c => rfl
  unfold collectChannels
  rw [tomChannels_nil]
  rw [foldl_fixed (otherStep ⟨cns, []⟩ otherPre mapping) _ _ ?ho]
  case ho =>
    intro d i _
    unfold otherStep
    split
    · simp [hyes]
    · rfl
  rw [foldl_fixed (promptedStep ⟨cns, []⟩ prompPre mapping) _ _ ?hp]
  case hp =>
    intro d i _
    unfold promptedStep
    split
    · simp [hyes]
    · rfl
  rw [foldl_fixed (suffixStep ⟨cns, []⟩ prompPre mapping excl) _ _ ?hs]
  case hs =>
    intro d k _
    unfold suffixStep
    cases hlk : mapping.lookup k with
    | none =>
      split
      · rfl
      · simp [hlk]
    | some ch =>
      split
      · rfl
      · simp [hlk, hyes]

/-! ### Claim theorems

Percent columns are represented in tenths of a percent
(`50.0` is `500`, `33.3` is `333`). -/

/-- Claim C1 (counterexample): the claim states that for every
frequency-table-producing operation the sum of the count column equals the
eligible population size.  For the indicator-column multi-select
`freq_multi` this fails: one record that selects two options yields a
table whose counts sum to 2 while the eligible population is the single
record. -/
theorem claim_C1_counterexample :
    sumCounts (freq_multi_sec4 dfTwoSel ["A", "B"] [("A", "a"), ("B", "b")]) = 2 ∧
    dfTwoSel.rows.length = 1 := by decide

/-- Claim C1 (amended): for `freq_single` the sum of the count column
equals the eligible population (the records remaining after missing-value
handling per the include-missing flag and removal of the excluded codes);
for the indicator-column `freq_multi` (with pairwise distinct option
labels) the sum instead equals the total number of affirmative cells
across the present columns, and for `freq_multi_numbered` it equals the
total number of eligible slot values that are keys of the mapping — the
number of selections or mentions, not the record count. -/
theorem claim_C1_amended
    (col : List (Option PyVal)) (mapping : Option (List (PyVal × String)))
    (excl : Option (List PyVal)) (includeNull : Bool)
    (df : Dframe) (cols : List String) (labels : List (String × String))
    (hnd : ((cols.filter (fun c => df.colNames.contains c)).map
        (fun c => labelsGet labels c)).Nodup)
    (df2 : Dframe) (pre : String) (maxNum : ℕ)
    (mapping2 : List (PyVal × String)) (excl2 : Option (List PyVal)) :
    sumCounts (freq_single col mapping excl includeNull)
      = (applyExclude excl (handleNull col includeNull)).length ∧
    sumCounts (freq_multi_sec4 df cols labels)
      = ((cols.filter (fun c => df.colNames.contains c)).map
          (fun c => yesCountTokens (df.col c))).sum ∧
    sumCounts (freq_multi_numbered df2 pre maxNum mapping2 excl2)
      = (numberedCells df2 pre maxNum excl2).countP
          (fun v => (mapping2.lookup v).isSome) := by
  refine ⟨sum_freq_single col mapping excl includeNull, ?_, ?_⟩
  · unfold freq_multi_sec4
    have hsum := sumVals_optionCountsFrom labels (fun c => yesCountTokens (df.col c))
      (cols.filter (fun c => df.colNames.contains c)) [] hnd
      (by intro c _ hc; cases hc)
    by_cases hpres : (cols.filter (fun c => df.colNames.contains c)).isEmpty
    · rw [if_pos hpres]
      rw [List.isEmpty_iff.mp hpres]
      rfl
    · rw [if_neg hpres]
      by_cases hemp : (optionCountsFrom [] labels
          (fun c => yesCountTokens (df.col c))
          (cols.filter (fun c => df.colNames.contains c))).isEmpty
      · rw [if_pos hemp]
        rw [List.isEmpty_iff.mp hemp] at hsum
        simp only [sumVals, List.map_nil, List.sum_nil, Nat.zero_add] at hsum
        simp only [sumCounts, List.map_nil, List.sum_nil]
        omega
      · rw [if_neg hemp]
        rw [sumCounts_rows _ _ (fun p => rfl)]
        simpa [sumVals] using hsum
  · unfold freq_multi_numbered
    have hsum := sumVals_numberedCounts (numberedCells df2 pre maxNum excl2) mapping2
    by_cases hemp : (numberedCounts (numberedCells df2 pre maxNum excl2)
        mapping2).isEmpty
    · rw [if_pos hemp]
      rw [List.isEmpty_iff.mp hemp] at hsum
      simp only [sumVals, List.map_nil, List.sum_nil] at hsum
      simp only [sumCounts, List.map_nil, List.sum_nil]
      omega
    · rw [if_neg hemp]
      rw [sumCounts_rows _ _ (fun p => rfl)]
      exact hsum

/-- Claim C1 (witness): the amended claim instantiated on concrete data:
the C2 SEX column for the single-answer part (8 eligible records) and the
two-option one-record dataframe for the multi-select part (2 affirmative
cells). -/
theorem claim_C1_witness :
    ((["A", "B"].filter (fun c => dfTwoSel.colNames.contains c)).map
        (fun c => labelsGet [("A", "a"), ("B", "b")] c)).Nodup ∧
    sumCounts (freq_single sexCol (some sexMap) (some []) false)
      = (applyExclude (some []) (handleNull sexCol false)).length ∧
    sumCounts (freq_multi_sec4 dfTwoSel ["A", "B"] [("A", "a"), ("B", "b")])
      = ((["A", "B"].filter (fun c => dfTwoSel.colNames.contains c)).map
          (fun c => yesCountTokens (dfTwoSel.col c))).sum :=
  ⟨by decide,
   (claim_C1_amended sexCol (some sexMap) (some []) false dfTwoSel ["A", "B"]
      [("A", "a"), ("B", "b")] (by decide) dfC3 "P" 3 mapC3 none).1,
   (claim_C1_amended sexCol (some sexMap) (some []) false dfTwoSel ["A", "B"]
      [("A", "a"), ("B", "b")] (by decide) dfC3 "P" 3 mapC3 none).2.1⟩

/-- Claim C2 (counterexample): the claim asserts the table
`[Female 4 50.0, Male 4 50.0]` with the tie broken by input encounter
order.  The code's table is not `[Female, Male]`: `value_counts` keys are
in first-appearance order and pandas' stable descending sort keeps ties in
that order, so Male (first encountered) comes first. -/
theorem claim_C2_counterexample :
    freq_single sexCol (some sexMap) (some []) false ≠
      [⟨.vstr "Female", 4, 500⟩, ⟨.vstr "Male", 4, 500⟩] := by decide

/-- Claim C2 (amended): for the 10 records with field values
1,1,2,2,2,NA,NA,1,2,1, mapping 1 ↦ Male / 2 ↦ Female, empty exclusion set
and include_missing false, the table is exactly two rows — Male with count
4 and percent 50.0, then Female with count 4 and percent 50.0 (denominator
8, both missing records dropped), the tie broken by input encounter order
with the first-encountered answer (Male) first. -/
theorem claim_C2_amended :
    freq_single sexCol (some sexMap) (some []) false =
      [⟨.vstr "Male", 4, 500⟩, ⟨.vstr "Female", 4, 500⟩] := by decide

/-- Claim C3: for the numbered multi-select with max index 3, codes
1 ↦ X / 2 ↦ Y and slot rows [1,2,NA] and [2,NA,NA], the table holds
X with count 1 and percent 33.3 and Y with count 2 and percent 66.7;
in general every row's count is the number of eligible slot cells whose
value maps to that row's label (repeated mentions each count), and the
percent denominator is the total number of mapped eligible cells — the sum
of all counts, not the population size. -/
theorem claim_C3 :
    (freq_multi_numbered dfC3 "P" 3 mapC3 none =
      [⟨.vstr "Y", 2, 667⟩, ⟨.vstr "X", 1, 333⟩]) ∧
    (∀ (df : Dframe) (pre : String) (maxNum : ℕ)
      (mapping : List (PyVal × String)) (excl : Option (List PyVal))
      (r : FreqRow), r ∈ freq_multi_numbered df pre maxNum mapping excl →
      ∃ k : String, r.answer = .vstr k ∧
        r.count = (numberedCells df pre maxNum excl).countP
          (fun v => mapping.lookup v == some k) ∧
        r.percent = pctTenths r.count
          ((numberedCells df pre maxNum excl).countP
            (fun v => (mapping.lookup v).isSome))) := by
  constructor
  · decide
  · intro df pre maxNum mapping excl r hr
    unfold freq_multi_numbered at hr
    by_cases hemp : (numberedCounts (numberedCells df pre maxNum excl)
        mapping).isEmpty
    · rw [if_pos hemp] at hr
      cases hr
    · rw [if_neg hemp] at hr
      rcases mem_rows_of_counts hr with ⟨p, hp, hre⟩
      refine ⟨p.1, ?_, ?_, ?_⟩
      · rw [hre]
      · rw [hre]
        exact numberedCounts_entry (show (p.1, p.2) ∈ _ from hp)
      · rw [hre]
        show pctTenths p.2 _ = pctTenths p.2 _
        rw [show ((numberedCounts (numberedCells df pre maxNum excl)
            mapping).map (fun p => p.2)).sum
          = (numberedCells df pre maxNum excl).countP
              (fun v => (mapping.lookup v).isSome) from
          sumVals_numberedCounts (numberedCells df pre maxNum excl) mapping]

/-- Claim C3 (witness): the general row characterization applied to the
top row (Y, count 2, percent 66.7) of the concrete scenario table. -/
theorem claim_C3_witness :
    ∃ k : String, (⟨.vstr "Y", 2, 667⟩ : FreqRow).answer = .vstr k ∧
      (⟨.vstr "Y", 2, 667⟩ : FreqRow).count = (numberedCells dfC3 "P" 3 none).countP
        (fun v => mapC3.lookup v == some k) ∧
      (⟨.vstr "Y", 2, 667⟩ : FreqRow).percent =
        pctTenths (⟨.vstr "Y", 2, 667⟩ : FreqRow).count
          ((numberedCells dfC3 "P" 3 none).countP
            (fun v => (mapC3.lookup v).isSome)) :=
  claim_C3.2 dfC3 "P" 3 mapC3 none ⟨.vstr "Y", 2, 667⟩ (by decide)

/-- Claim C4: every row of the combination table carries the three
percentages of that channel's top-of-mind, unprompted-other and prompted
counts over the one fixed denominator `len(df)` (each
`round(100 * count / N, 1)`, represented in tenths), its Total column is
the rounding of the sum of the three raw metrics over the same
denominator, and the rows are sorted descending by Total. -/
theorem claim_C4 (df : Dframe) (tomCol otherPre prompPre : String) (maxNum : ℕ)
    (mapping : List (Int × String)) (excl : Option (List Int)) :
    (∀ r ∈ combine_tom_other_promp df tomCol otherPre prompPre maxNum mapping excl,
      ∃ p ∈ collectChannels df tomCol otherPre prompPre maxNum mapping excl,
        r.channel = p.1 ∧
        r.tomPct = pctTenths p.2.tom df.rows.length ∧
        r.otherPct = pctTenths p.2.other df.rows.length ∧
        r.promptedPct = pctTenths p.2.prompted df.rows.length ∧
        r.totalPct = divRoundHalfEven
          (1000 * (p.2.tom : ℤ) + 1000 * (p.2.other : ℤ) + 1000 * (p.2.prompted : ℤ))
          (df.rows.length : ℤ)) ∧
    (combine_tom_other_promp df tomCol otherPre prompPre maxNum mapping excl).Pairwise
      (fun a b => b.totalPct ≤ a.totalPct) := by
  constructor
  · intro r hr
    unfold combine_tom_other_promp at hr
    by_cases hemp : (collectChannels df tomCol otherPre prompPre maxNum mapping
        excl).isEmpty
    · rw [if_pos hemp] at hr
      cases hr
    · rw [if_neg hemp] at hr
      rcases List.mem_map.mp (mem_sortDescBy.mp hr) with ⟨p, hp, hpe⟩
      refine ⟨p, hp, ?_, ?_, ?_, ?_, ?_⟩
      · rw [← hpe]
      · rw [← hpe]
      · rw [← hpe]
      · rw [← hpe]
      · rw [← hpe]
        show pctTenths (p.2.tom + p.2.other + p.2.prompted) df.rows.length = _
        unfold pctTenths
        congr 1
        push_cast
        ring
  · unfold combine_tom_other_promp
    by_cases hemp : (collectChannels df tomCol otherPre prompPre maxNum mapping
        excl).isEmpty
    · rw [if_pos hemp]
      exact List.Pairwise.nil
    · rw [if_neg hemp]
      exact pairwise_sortDescBy _ _

/-- Claim C4 (witness): the row characterization applied to the single row
of the concrete combination table (TOM / Other / Prompted each 100.0,
Total 300.0). -/
theorem claim_C4_witness :
    ∃ p ∈ collectChannels dfComb "T" "O" "P" 1 [(1, "Alpha")] none,
      (⟨.vstr "Alpha", 1000, 1000, 1000, 3000⟩ : CombRow).channel = p.1 ∧
      (⟨.vstr "Alpha", 1000, 1000, 1000, 3000⟩ : CombRow).tomPct
        = pctTenths p.2.tom dfComb.rows.length ∧
      (⟨.vstr "Alpha", 1000, 1000, 1000, 3000⟩ : CombRow).otherPct
        = pctTenths p.2.other dfComb.rows.length ∧
      (⟨.vstr "Alpha", 1000, 1000, 1000, 3000⟩ : CombRow).promptedPct
        = pctTenths p.2.prompted dfComb.rows.length ∧
      (⟨.vstr "Alpha", 1000, 1000, 1000, 3000⟩ : CombRow).totalPct
        = divRoundHalfEven
            (1000 * (p.2.tom : ℤ) + 1000 * (p.2.other : ℤ) + 1000 * (p.2.prompted : ℤ))
            (dfComb.rows.length : ℤ) :=
  (claim_C4 dfComb "T" "O" "P" 1 [(1, "Alpha")] none).1
    ⟨.vstr "Alpha", 1000, 1000, 1000, 3000⟩ (by decide)

/-- Claim C5 (counterexample): the claim states that the placeholder
tokens are ignored case-insensitively both when counting a respondent's
segment size and when collecting mentions.  For the slot text "NONE" the
segment count is 1, not 0 — the segment counting replaces only the exact
strings "nan"/"None"/"0"/"" — while mention collection does drop it
case-insensitively. -/
theorem claim_C5_counterexample :
    (dfNoneWord.rows.map
      (fun r => rowMentionCount (validCommentCols dfNoneWord "C" 1) r) = [1]) ∧
    collectMentions dfNoneWord (validCommentCols dfNoneWord "C" 1) = [] := by
  decide

/-- Claim C5 (amended): a respondent with slot values "A", "", "a", "B"
contributes a segment count of 3 (not 4), and the mentions table merges
"A" and "a" into one normalized row with count 2 and representative text
"A" (first encountered); when collecting mentions the placeholder tokens
"nan"/"none"/"0"/"" are ignored case-insensitively, but when counting a
respondent's segment size only the exact strings "nan"/"None"/"0"/"" are
ignored (case-sensitively), so a slot "NONE" counts as a segment while
producing no mention. -/
theorem claim_C5_amended :
    (dfC5.rows.map
      (fun r => rowMentionCount (validCommentCols dfC5 "C" 4) r) = [3]) ∧
    (mentionsTable dfC5 (validCommentCols dfC5 "C" 4) = [("A", 2), ("B", 1)]) ∧
    (dfNoneWord.rows.map
      (fun r => rowMentionCount (validCommentCols dfNoneWord "C" 1) r) = [1]) ∧
    (collectMentions dfNoneWord (validCommentCols dfNoneWord "C" 1) = []) ∧
    (∀ v : PyVal, rowMentionCount ["c"] (fun _ => some v)
        = if strTrim v.pyStr ∈ segPlaceholders then 0 else 1) ∧
    (∀ v : PyVal, collectMentions ⟨["c"], [fun _ => some v]⟩ ["c"]
        = if strLower (strTrim v.pyStr) ∈ mentionPlaceholders then []
          else [strTrim v.pyStr]) := by
  refine ⟨by decide, by decide, by decide, by decide, ?_, ?_⟩
  · intro v
    unfold rowMentionCount
    by_cases hm : strTrim v.pyStr ∈ segPlaceholders
    · simp [cellStr, hm]
    · simp [cellStr, hm]
  · intro v
    unfold collectMentions
    by_cases hm : strLower (strTrim v.pyStr) ∈ mentionPlaceholders
    · simp [Dframe.col, cellStr, hm]
    · simp [Dframe.col, cellStr, hm]

/-- Claim C6 (counterexample): the claim states that in every
indicator-column tabulation a record selects an option exactly when its
value case-insensitively equals one of the affirmative tokens, uniformly
across call sites.  The lowercase text "yes" is selected by section2's
`freq_multi` but not by section4's, and section4's token match is
case-sensitive ("True" selected, "TRUE" not). -/
theorem claim_C6_counterexample :
    freq_multi dfLowerYes ["A"] [("A", "L")] = [⟨.vstr "L", 1, 1000⟩] ∧
    freq_multi_sec4 dfLowerYes ["A"] [("A", "L")] = [] ∧
    freq_multi_sec4 dfMixedTrue ["A"] [("A", "L")] = [⟨.vstr "L", 1, 1000⟩] ∧
    freq_multi_sec4 dfUpperTrue ["A"] [("A", "L")] = [] := by decide

/-- Claim C6 (amended): the two indicator-column call sites use different
affirmative rules.  In section2/app `freq_multi` a cell is affirmative
exactly when its string form uppercases to "YES" (case-insensitive "yes",
no other tokens); in section4 `freq_multi` a cell is affirmative exactly
when it is non-missing and its string form is literally one of
"1"/"1.0"/"Yes"/"True"/"checked" (case-sensitive).  The rules disagree,
e.g. at "yes", and section4's is not closed under case changes
("True" accepted, "TRUE" rejected). -/
theorem claim_C6_amended :
    (∀ v : Option PyVal, yesCountUpper [v]
        = if strUpper (cellStr v) == "YES" then 1 else 0) ∧
    (∀ v : PyVal, yesCountTokens [some v]
        = if v.pyStr ∈ affirmTokens then 1 else 0) ∧
    yesCountTokens [none] = 0 ∧
    yesCountUpper [some (.vstr "yes")] = 1 ∧
    yesCountTokens [some (.vstr "yes")] = 0 ∧
    yesCountTokens [some (.vstr "True")] = 1 ∧
    yesCountTokens [some (.vstr "TRUE")] = 0 := by
  refine ⟨?_, ?_, by decide, by decide, by decide, by decide, by decide⟩
  · intro v
    unfold yesCountUpper
    cases hc : strUpper (cellStr v) == "YES" with
    | true => simp [hc]
    | false => simp [hc]
  · intro v
    unfold yesCountTokens
    by_cases hm : v.pyStr ∈ affirmTokens
    · simp [hm]
    · simp [hm]

/-- Claim C7: the demographic filter predicates of `render_filters` are
order-independent — applying any two predicates in either order gives the
same filtered record list, and more generally the result of applying a
sequence of active predicates is invariant under every permutation of the
sequence. -/
theorem claim_C7 :
    (∀ (rows : List (String → Option PyVal)) (p q : String × List PyVal),
      applyPred (applyPred rows p) q = applyPred (applyPred rows q) p) ∧
    (∀ (rows : List (String → Option PyVal)) (ps₁ ps₂ : List (String × List PyVal)),
      List.Perm ps₁ ps₂ → applyPreds rows ps₁ = applyPreds rows ps₂) := by
  constructor
  · intro rows p q
    exact applyPreds_perm rows (List.Perm.swap q p [])
  · intro rows ps₁ ps₂ h
    exact applyPreds_perm rows h

/-- Claim C7 (witness): commutativity instantiated on two concrete
predicates over a two-row record set. -/
theorem claim_C7_witness :
    applyPreds [fun c => if c = "S" then some (.vint 1) else none,
                fun _ => none]
        [("S", [.vint 1]), ("S", [.vint 1, .vint 2])]
      = applyPreds [fun c => if c = "S" then some (.vint 1) else none,
                    fun _ => none]
          [("S", [.vint 1, .vint 2]), ("S", [.vint 1])] :=
  claim_C7.2 _ _ _
    (List.Perm.swap ("S", [PyVal.vint 1, PyVal.vint 2]) ("S", [PyVal.vint 1]) [])

/-- Claim C8: every row of every frequency table produced by the
tabulation operations — `freq_single`, both `freq_multi` variants,
`freq_multi_numbered` and `freq_multi_yes` — has a strictly positive
count; a zero-count category never appears as a row. -/
theorem claim_C8 :
    (∀ (col : List (Option PyVal)) (mapping : Option (List (PyVal × String)))
        (excl : Option (List PyVal)) (includeNull : Bool) (r : FreqRow),
      r ∈ freq_single col mapping excl includeNull → 0 < r.count) ∧
    (∀ (df : Dframe) (cols : List String) (labels : List (String × String))
        (r : FreqRow), r ∈ freq_multi df cols labels → 0 < r.count) ∧
    (∀ (df : Dframe) (cols : List String) (labels : List (String × String))
        (r : FreqRow), r ∈ freq_multi_sec4 df cols labels → 0 < r.count) ∧
    (∀ (df : Dframe) (pre : String) (maxNum : ℕ)
        (mapping : List (PyVal × String)) (excl : Option (List PyVal))
        (r : FreqRow), r ∈ freq_multi_numbered df pre maxNum mapping excl →
          0 < r.count) ∧
    (∀ (df : Dframe) (pre : String) (maxNum : ℕ) (mapping : List (Int × String))
        (r : FreqRow), r ∈ freq_multi_yes df pre maxNum mapping → 0 < r.count) := by
  refine ⟨?_, ?_, ?_, ?_, ?_⟩
  · intro col mapping excl includeNull r hr
    unfold freq_single at hr
    by_cases h : (applyMapping mapping (applyExclude excl
        (handleNull col includeNull))).isEmpty
    · rw [if_pos h] at hr
      cases hr
    · rw [if_neg h] at hr
      exact freqTabOf_count_pos hr
  · intro df cols labels r hr
    unfold freq_multi at hr
    by_cases h1 : (cols.filter (fun c => df.colNames.contains c)).isEmpty
    · rw [if_pos h1] at hr
      cases hr
    · rw [if_neg h1] at hr
      by_cases h2 : (optionCountsFrom [] labels
          (fun c => yesCountUpper (df.col c))
          (cols.filter (fun c => df.colNames.contains c))).isEmpty
      · rw [if_pos h2] at hr
        cases hr
      · rw [if_neg h2] at hr
        rcases mem_rows_of_counts hr with ⟨p, hp, hre⟩
        rw [hre]
        exact optionCountsFrom_pos labels _ _ (fun q hq => absurd hq
          (List.not_mem_nil q)) p hp
  · intro df cols labels r hr
    unfold freq_multi_sec4 at hr
    by_cases h1 : (cols.filter (fun c => df.colNames.contains c)).isEmpty
    · rw [if_pos h1] at hr
      cases hr
    · rw [if_neg h1] at hr
      by_cases h2 : (optionCountsFrom [] labels
          (fun c => yesCountTokens (df.col c))
          (cols.filter (fun c => df.colNames.contains c))).isEmpty
      · rw [if_pos h2] at hr
        cases hr
      · rw [if_neg h2] at hr
        rcases mem_rows_of_counts hr with ⟨p, hp, hre⟩
        rw [hre]
        exact optionCountsFrom_pos labels _ _ (fun q hq => absurd hq
          (List.not_mem_nil q)) p hp
  · intro df pre maxNum mapping excl r hr
    unfold freq_multi_numbered at hr
    by_cases h : (numberedCounts (numberedCells df pre maxNum excl)
        mapping).isEmpty
    · rw [if_pos h] at hr
      cases hr
    · rw [if_neg h] at hr
      rcases mem_rows_of_counts hr with ⟨p, hp, hre⟩
      rw [hre]
      exact numberedCounts_pos mapping _ p hp
  · intro df pre maxNum mapping r hr
    unfold freq_multi_yes at hr
    have hpos : ∀ p ∈ ([98, 999] : List Int).foldl
        (fun d k => yesSlotStep df mapping d
          (rstripUnderscore pre ++ "_" ++ toString k) k)
        ((List.range' 1 maxNum).foldl
          (fun d i => yesSlotStep df mapping d (slotCol pre i) (i : Int)) []),
        0 < p.2 := by
      refine foldl_invariant
        (P := fun b : List (String × ℕ) => ∀ p ∈ b, 0 < p.2) _ ?_ _ _ ?_
      · intro b k hb
        exact yesSlotStep_pos _ _ hb
      · refine foldl_invariant
          (P := fun b : List (String × ℕ) => ∀ p ∈ b, 0 < p.2) _ ?_ _ _ ?_
        · intro b i hb
          exact yesSlotStep_pos _ _ hb
        · intro p hp
          cases hp
    by_cases h : (([98, 999] : List Int).foldl
        (fun d k => yesSlotStep df mapping d
          (rstripUnderscore pre ++ "_" ++ toString k) k)
        ((List.range' 1 maxNum).foldl
          (fun d i => yesSlotStep df mapping d (slotCol pre i) (i : Int))
          [])).isEmpty
    · rw [if_pos h] at hr
      cases hr
    · rw [if_neg h] at hr
      rcases mem_rows_of_counts hr with ⟨p, hp, hre⟩
      rw [hre]
      exact hpos p hp

/-- Claim C8 (witness): the positivity of the count applied to one
concrete row of each of four tabulations. -/
theorem claim_C8_witness :
    0 < (⟨.vstr "Male", 4, 500⟩ : FreqRow).count ∧
    0 < (⟨.vstr "L", 1, 1000⟩ : FreqRow).count ∧
    0 < (⟨.vstr "Y", 2, 667⟩ : FreqRow).count ∧
    0 < (⟨.vstr "W", 1, 1000⟩ : FreqRow).count :=
  ⟨claim_C8.1 sexCol (some sexMap) (some []) false _ (by decide),
   claim_C8.2.1 dfLowerYes ["A"] [("A", "L")] _ (by decide),
   claim_C8.2.2.2.1 dfC3 "P" 3 mapC3 none _ (by decide),
   claim_C8.2.2.2.2 dfYesW "Q" 1 [(1, "W")] _ (by decide)⟩

/-- Claim C9 (counterexample): the claim states that a data value absent
from the supplied mapping is rendered under its literal string form and
never dropped.  `freq_multi_numbered` drops unmapped values: a single
record with slot value 5 and mapping {1 ↦ X} produces the empty table
instead of a row labelled "5". -/
theorem claim_C9_counterexample :
    freq_multi_numbered dfUnmapped "P" 1 [(.vint 1, "X")] none = [] := by decide

/-- Claim C9 (amended): `freq_single` renders every eligible value absent
from the supplied mapping under its literal string form as a row with
positive count (never dropped, never an error), but `freq_multi_numbered`
silently drops values that are not keys of its mapping. -/
theorem claim_C9_amended (col : List (Option PyVal)) (m : List (PyVal × String))
    (excl : Option (List PyVal)) (includeNull : Bool) (v : PyVal)
    (hv : v ∈ applyExclude excl (handleNull col includeNull))
    (hm : m.lookup v = none) :
    (∃ r ∈ freq_single col (some m) excl includeNull,
      r.answer = .vstr v.pyStr ∧ 0 < r.count) ∧
    freq_multi_numbered dfUnmapped "P" 1 [(.vint 1, "X")] none = [] := by
  constructor
  · have hx : PyVal.vstr v.pyStr ∈ applyMapping (some m)
        (applyExclude excl (handleNull col includeNull)) := by
      unfold applyMapping
      apply List.mem_map.mpr
      refine ⟨v, hv, ?_⟩
      unfold labelOf
      rw [hm]
    unfold freq_single
    have hne : ¬ (applyMapping (some m)
        (applyExclude excl (handleNull col includeNull))).isEmpty := by
      intro hemp
      rw [List.isEmpty_iff.mp hemp] at hx
      cases hx
    rw [if_neg hne]
    rcases exists_freqTabOf_row hx with ⟨r, hr, ha, hc⟩
    refine ⟨r, hr, ha, ?_⟩
    rw [hc]
    exact List.count_pos_iff.mpr hx
  · decide

/-- Claim C9 (witness): the `freq_single` fallback applied to a single
record holding the unmapped code 7 under the mapping {1 ↦ A}. -/
theorem claim_C9_witness :
    PyVal.vint 7 ∈ applyExclude none (handleNull [some (.vint 7)] false) ∧
    ([(PyVal.vint 1, "A")].lookup (PyVal.vint 7) = none) ∧
    (∃ r ∈ freq_single [some (.vint 7)] (some [(.vint 1, "A")]) none false,
      r.answer = .vstr (PyVal.vint 7).pyStr ∧ 0 < r.count) :=
  ⟨by decide, by decide,
   (claim_C9_amended [some (.vint 7)] [(.vint 1, "A")] none false (.vint 7)
      (by decide) (by decide)).1⟩

/-- Claim C10: with zero records, `combine_tom_other_promp` returns the
empty table; and whenever the collected channel map is non-empty — the
only case in which the function divides by the total-population
denominator — the record set is non-empty, so the denominator is
positive. -/
theorem claim_C10 :
    (∀ (cns : List String) (tomCol otherPre prompPre : String) (maxNum : ℕ)
        (mapping : List (Int × String)) (excl : Option (List Int)),
      combine_tom_other_promp ⟨cns, []⟩ tomCol otherPre prompPre maxNum mapping
        excl = []) ∧
    (∀ (df : Dframe) (tomCol otherPre prompPre : String) (maxNum : ℕ)
        (mapping : List (Int × String)) (excl : Option (List Int)),
      collectChannels df tomCol otherPre prompPre maxNum mapping excl ≠ [] →
      0 < df.rows.length) := by
  constructor
  · intro cns tomCol otherPre prompPre maxNum mapping excl
    unfold combine_tom_other_promp
    rw [collectChannels_nil]
    rfl
  · intro df tomCol otherPre prompPre maxNum mapping excl hne
    rcases df with ⟨cns, rows⟩
    cases rows with
    | nil =>
      exact absurd (collectChannels_nil cns tomCol otherPre prompPre maxNum
        mapping excl) hne
    | cons r rs => simp

/-- Claim C10 (witness): the non-empty channel map of the concrete
combination dataframe forces a positive record count. -/
theorem claim_C10_witness :
    collectChannels dfComb "T" "O" "P" 1 [(1, "Alpha")] none ≠ [] ∧
    0 < dfComb.rows.length :=
  ⟨by decide, claim_C10.2 dfComb "T" "O" "P" 1 [(1, "Alpha")] none (by decide)⟩

end Social
